import Mathlib

/-
Verification of the Go-Back-N file-transfer program in application.py.

Bytes are modelled as natural numbers below 256 and byte strings as lists
of naturals.  Python ints are Nat (the program only ever handles
non-negative sequence and acknowledgment numbers; struct format !H is
faithful below 2^16, which the top-level theorems assume as a hypothesis).
Socket receives are modelled as explicit events; raised-and-uncaught
exceptions are modelled by an explicit crashed status.
-/

namespace App

/-- header_size constant from the source: the fixed header is 6 bytes. -/
def header_size : Nat := 6

/-- data_size constant from the source: maximal payload per packet. -/
def data_size : Nat := 994

/-- packet_size constant from the source. -/
def packet_size : Nat := data_size + header_size

/-- rest_flag = 1 (reserved). -/
def rest_flag : Nat := 1

/-- fin_flag = 2. -/
def fin_flag : Nat := 2

/-- ack_flag = 4. -/
def ack_flag : Nat := 4

/-- syn_flag = 8. -/
def syn_flag : Nat := 8

/-- Big-endian 16-bit encoding of one field of struct.pack with format !H.
For n < 65536 this is exactly the two bytes Python produces. -/
def pack16 (n : Nat) : List Nat := [n / 256, n % 256]

/-- create_packet from the source: pack(header_format, seq, ack, flags) ++ data. -/
def create_packet (seq ack flags : Nat) (data : List Nat) : List Nat :=
  pack16 seq ++ pack16 ack ++ pack16 flags ++ data

/-- parse_header from the source: unpack with format !HHH.  unpack demands
exactly 6 bytes and raises struct.error otherwise, modelled as none. -/
def parse_header (header : List Nat) : Option (Nat × Nat × Nat) :=
  match header with
  | [b0, b1, b2, b3, b4, b5] => some (b0 * 256 + b1, b2 * 256 + b3, b4 * 256 + b5)
  | _ => none

/-- The two values accepted by check_testCase.  The Python variable also
takes the empty string (falsy) after a skip fires, modelled as none of
Option TestCase. -/
inductive TestCase where
  | skip_ack : TestCase
  | skip_seq_num : TestCase
  deriving DecidableEq, Repr

/-- The receiver-side mutable state of server/gbnSwServer: the globals
expected_seq_num, skipped_ack, testCase, recv_buffer, plus the bytes
written to the output file so far. -/
structure ReceiverState where
  expected_seq_num : Nat
  skipped_ack : Bool
  testCase : Option TestCase
  fileOut : List Nat
  recv_buffer : List (Nat × List Nat)
  deriving DecidableEq, Repr

/-- gbnSwServer from the source: one data-packet arrival.  Returns the new
receiver state and the list of packets sent back (at most one ACK). -/
def gbnSwServer (st : ReceiverState) (recv_seq : Nat) (data : List Nat) :
    ReceiverState × List (List Nat) :=
  if st.expected_seq_num = 4 ∧ st.testCase = some TestCase.skip_ack ∧ st.skipped_ack = false then
    ({ st with skipped_ack := true, testCase := none }, [])
  else if recv_seq = st.expected_seq_num then
    ({ st with
        fileOut := st.fileOut ++ data,
        expected_seq_num := st.expected_seq_num + 1,
        skipped_ack := false },
      [create_packet 0 st.expected_seq_num ack_flag []])
  else
    (st, [])

/-- Outcome of the server receive loop on a finite batch of arrived
packets: still in the loop, broke out on FIN, or terminated on an
uncaught exception. -/
inductive ServerStatus where
  | running : ServerStatus
  | finished : ServerStatus
  | crashed : ServerStatus
  deriving DecidableEq, Repr

/-- The server data-phase receive loop from the source, run over a list of
arrived datagrams.  Per iteration: slice off the 6-byte header, parse it
(an undersized datagram makes unpack raise struct.error, which is not
caught: crashed), handle an exactly-6-byte packet as FIN (break) or as a
handshake remnant (skip), and hand data packets to gbnSwServer.  Returns
the final receiver state, all packets sent, and the loop status. -/
def serverRun : ReceiverState → List (List Nat) →
    ReceiverState × List (List Nat) × ServerStatus
  | st, [] => (st, [], ServerStatus.running)
  | st, pkt :: rest =>
    match parse_header (pkt.take header_size) with
    | none => (st, [], ServerStatus.crashed)
    | some (recv_seq, _, recv_flags) =>
      if pkt.length = header_size then
        if recv_flags &&& 2 = 2 then (st, [], ServerStatus.finished)
        else serverRun st rest
      else
        let r1 := gbnSwServer st recv_seq (pkt.drop header_size)
        let r2 := serverRun r1.1 rest
        (r2.1, r1.2 ++ r2.2.1, r2.2.2)

/-- Stable insert for sorting by the first component, modelling Python's
stable list.sort(key = first component). -/
def insertByKey (x : Nat × List Nat) : List (Nat × List Nat) → List (Nat × List Nat)
  | [] => [x]
  | y :: ys => if y.1 < x.1 then y :: insertByKey x ys else x :: y :: ys

/-- Stable sort by the first component. -/
def sortByKey : List (Nat × List Nat) → List (Nat × List Nat)
  | [] => []
  | x :: xs => insertByKey x (sortByKey xs)

/-- restructFile from the source: sort recv_buffer by sequence number and
append each buffered packet's bytes after the header to the file. -/
def restructFile (fileOut : List Nat) (buf : List (Nat × List Nat)) : List Nat :=
  fileOut ++ ((sortByKey buf).map (fun p => p.2.drop header_size)).flatten

/-- The sender-side state of goBackNClient: base, next_seq_num, the
skipped_seq_num test-case flag, and the unackedPackets list. -/
structure SenderState where
  base : Nat
  next_seq_num : Nat
  skipped_seq_num : Bool
  unackedPackets : List (Nat × List Nat)
  deriving DecidableEq, Repr

/-- The inner send-window while loop of goBackNClient, with explicit fuel.
The loop condition requires next < base + w, so fuel base + w - next never
runs out while the condition holds; the fuel-0 return equals the
condition-false return.  Returns (next_seq_num, skipped_seq_num,
unackedPackets, packets put on the wire in order). -/
def fillWindowAux (dataArr : List (List Nat)) (w : Nat) (tc : Option TestCase) (base : Nat) :
    Nat → Nat → Bool → List (Nat × List Nat) →
    Nat × Bool × List (Nat × List Nat) × List (List Nat)
  | 0, next, skipped, unacked => (next, skipped, unacked, [])
  | fuel + 1, next, skipped, unacked =>
    if next < base + w ∧ next < dataArr.length then
      let data := dataArr.getD next []
      let packet := create_packet next 0 0 data
      let unacked2 := unacked ++ [(next, packet)]
      if next = 4 ∧ tc = some TestCase.skip_seq_num ∧ skipped = false then
        fillWindowAux dataArr w tc base fuel (next + 1) true unacked2
      else
        let r := fillWindowAux dataArr w tc base fuel (next + 1) skipped unacked2
        (r.1, r.2.1, r.2.2.1, packet :: r.2.2.2)
    else (next, skipped, unacked, [])

/-- The fill-window phase of one outer-loop iteration of goBackNClient. -/
def fillWindow (dataArr : List (List Nat)) (w : Nat) (tc : Option TestCase)
    (st : SenderState) : SenderState × List (List Nat) :=
  let r := fillWindowAux dataArr w tc st.base (st.base + w - st.next_seq_num)
    st.next_seq_num st.skipped_seq_num st.unackedPackets
  (⟨st.base, r.1, r.2.1, r.2.2.1⟩, r.2.2.2)

/-- What the environment hands the sender's blocking recvfrom in one outer
iteration: a datagram, or a timeout (socket.timeout, like every other
receive failure, lands in the same except branch). -/
inductive ClientEvent where
  | timeout : ClientEvent
  | recv : List Nat → ClientEvent

/-- The receive/ACK-handling phase of one outer-loop iteration of
goBackNClient: the try/except around recvfrom.  A parse failure raises and
is caught by the blanket except, so it retransmits like a timeout; a
pop(0) on an empty unackedPackets raises IndexError, also caught, and the
except body then iterates over the (empty) unackedPackets, sending
nothing.  Returns the new state and the packets put on the wire. -/
def senderRecvPhase (st : SenderState) (ev : ClientEvent) :
    SenderState × List (List Nat) :=
  match ev with
  | ClientEvent.timeout => (st, st.unackedPackets.map Prod.snd)
  | ClientEvent.recv pkt =>
    match parse_header (pkt.take header_size) with
    | none => (st, st.unackedPackets.map Prod.snd)
    | some (_, recv_ack, recv_flags) =>
      if recv_flags = ack_flag ∧ recv_ack = st.base then
        match st.unackedPackets with
        | [] => (st, [])
        | _ :: rest => ({ st with base := recv_ack + 1, unackedPackets := rest }, [])
      else (st, [])

/-- One full outer-loop iteration of goBackNClient: fill the window, then
block on one receive.  Returns the new state and the packets sent. -/
def senderIter (dataArr : List (List Nat)) (w : Nat) (tc : Option TestCase)
    (st : SenderState) (ev : ClientEvent) : SenderState × List (List Nat) :=
  let f := fillWindow dataArr w tc st
  let r := senderRecvPhase f.1 ev
  (r.1, f.2 ++ r.2)

/-- Initial sender state of goBackNClient: base = 0, next_seq_num = 0,
no packets outstanding. -/
def initSender : SenderState := ⟨0, 0, false, []⟩

/-- Run the sender loop from a given state over a list of receive events. -/
def senderRunFrom (dataArr : List (List Nat)) (w : Nat) (tc : Option TestCase)
    (st : SenderState) (evs : List ClientEvent) : SenderState :=
  evs.foldl (fun s ev => (senderIter dataArr w tc s ev).1) st

/-- Run the sender loop from the initial state. -/
def senderRun (dataArr : List (List Nat)) (w : Nat) (tc : Option TestCase)
    (evs : List ClientEvent) : SenderState :=
  senderRunFrom dataArr w tc initSender evs

/-- Run the sender loop from the initial state, also collecting every
packet placed on the wire, in order. -/
def senderRunWire (dataArr : List (List Nat)) (w : Nat) (tc : Option TestCase)
    (evs : List ClientEvent) : SenderState × List (List Nat) :=
  evs.foldl (fun acc ev =>
      let r := senderIter dataArr w tc acc.1 ev
      (r.1, acc.2 ++ r.2))
    (initSender, [])

/-- clientHandshake from the source.  The reply argument is what the
single blocking recvfrom(header_size) yields: none for a timeout, some r
for an arriving datagram r (recvfrom truncates it to 6 bytes).  A parse
failure on an undersized reply raises and is caught by the same except as
the timeout.  Returns the packets the handshake sends and its result. -/
def clientHandshake (reply : Option (List Nat)) : List (List Nat) × Bool :=
  let synPkt := create_packet 0 0 syn_flag []
  match reply with
  | none => ([synPkt], false)
  | some r =>
    match parse_header (r.take header_size) with
    | none => ([synPkt], false)
    | some (recv_seq, _, recv_flags) =>
      if recv_flags &&& 12 = 12 then
        ([synPkt, create_packet 0 recv_seq ack_flag []], true)
      else ([synPkt], false)

/-- The client() entry point's wire behaviour: handshake first; on failure
it closes the socket and exits, transmitting nothing more; on success it
runs goBackNClient (driven by the given events) and finally sends FIN via
closeConnection. -/
def clientWire (dataArr : List (List Nat)) (w : Nat) (tc : Option TestCase)
    (reply : Option (List Nat)) (evs : List ClientEvent) : List (List Nat) :=
  let hs := clientHandshake reply
  if hs.2 then
    hs.1 ++ (senderRunWire dataArr w tc evs).2 ++ [create_packet 0 0 fin_flag []]
  else hs.1

/-- Initial receiver state set up by server() before its loop. -/
def initReceiver : ReceiverState := ⟨0, false, none, [], []⟩

/-- Joint state of a zero-loss run: both endpoint states and the two
in-flight FIFO queues (client-to-server data, server-to-client ACKs). -/
structure SysState where
  sender : SenderState
  receiver : ReceiverState
  chanCS : List (List Nat)
  chanSC : List (List Nat)
  srvStatus : ServerStatus
  deriving DecidableEq, Repr

/-- One round of the lock-step zero-loss schedule with no test case
enabled: the sender fills its window, the server consumes every queued
datagram in arrival order, then the sender performs its one blocking
receive on the oldest queued ACK (timing out only if none is in flight,
in which case its retransmissions join the data queue). -/
def roundStep (dataArr : List (List Nat)) (w : Nat) (s : SysState) : SysState :=
  if s.srvStatus ≠ ServerStatus.running then s
  else
    let f := fillWindow dataArr w none s.sender
    let sr := serverRun s.receiver (s.chanCS ++ f.2)
    if sr.2.2 ≠ ServerStatus.running then
      { s with receiver := sr.1, srvStatus := sr.2.2 }
    else
      let acks := s.chanSC ++ sr.2.1
      let ev := match acks with
        | [] => ClientEvent.timeout
        | p :: _ => ClientEvent.recv p
      let rp := senderRecvPhase f.1 ev
      { sender := rp.1, receiver := sr.1, chanCS := rp.2, chanSC := acks.tail,
        srvStatus := ServerStatus.running }

/-- Initial joint state after a successful handshake. -/
def initSys : SysState := ⟨initSender, initReceiver, [], [], ServerStatus.running⟩

/-- A full zero-loss transfer: one schedule round per chunk, then the
client's FIN (closeConnection) reaches the server, which breaks its loop
and runs restructFile.  The result is the byte sequence the receiver ends
up writing to its output file. -/
def simulate (dataArr : List (List Nat)) (w : Nat) : List Nat :=
  let s := (roundStep dataArr w)^[dataArr.length] initSys
  let sr := serverRun s.receiver (s.chanCS ++ [create_packet 0 0 fin_flag []])
  restructFile sr.1.fileOut sr.1.recv_buffer

/-- The list [s, s+1, ..., s+k-1] of consecutive indices. -/
def idxList : Nat → Nat → List Nat
  | _, 0 => []
  | s, k + 1 => s :: idxList (s + 1) k

/-- The data packet goBackNClient builds for chunk s. -/
def dataPkt (dataArr : List (List Nat)) (s : Nat) : List Nat :=
  create_packet s 0 0 (dataArr.getD s [])

/-- The ACK packet gbnSwServer sends for accepted sequence number s. -/
def ackPkt (s : Nat) : List Nat := create_packet 0 s ack_flag []

/-- Window edge after r rounds of the zero-loss schedule. -/
def tIdx (w n r : Nat) : Nat := if r = 0 then 0 else min (r + w - 1) n

/-- Closed form of the joint state after r rounds of the zero-loss
schedule. -/
def template (dataArr : List (List Nat)) (w r : Nat) : SysState :=
  { sender := ⟨r, tIdx w dataArr.length r, false,
      (idxList r (tIdx w dataArr.length r - r)).map (fun s => (s, dataPkt dataArr s))⟩,
    receiver := ⟨tIdx w dataArr.length r, false, none,
      (dataArr.take (tIdx w dataArr.length r)).flatten, []⟩,
    chanCS := [],
    chanSC := (idxList r (tIdx w dataArr.length r - r)).map ackPkt,
    srvStatus := ServerStatus.running }

/-! ### Codec lemmas -/

lemma parse_create (s a f : Nat) (d : List Nat) :
    parse_header ((create_packet s a f d).take header_size) = some (s, a, f) := by
  simp only [create_packet, pack16, header_size, List.cons_append, List.nil_append,
    List.take_succ_cons, List.take_zero, parse_header]
  refine congrArg some ?_
  refine Prod.ext ?_ (Prod.ext ?_ ?_) <;> simp <;> omega

lemma create_packet_length (s a f : Nat) (d : List Nat) :
    (create_packet s a f d).length = header_size + d.length := by
  simp [create_packet, pack16, header_size]
  omega

lemma create_packet_drop (s a f : Nat) (d : List Nat) :
    (create_packet s a f d).drop header_size = d := by
  simp [create_packet, pack16, header_size]

lemma parse_header_eq_some_iff (l : List Nat) :
    (∃ t, parse_header l = some t) ↔ l.length = 6 := by
  constructor
  · rintro ⟨t, ht⟩
    unfold parse_header at ht
    split at ht
    · simp_all
    · simp_all
  · intro hl
    match l, hl with
    | [b0, b1, b2, b3, b4, b5], _ => exact ⟨_, rfl⟩

lemma parse_header_take_none (pkt : List Nat) (h : pkt.length < header_size) :
    parse_header (pkt.take header_size) = none := by
  cases hp : parse_header (pkt.take header_size) with
  | none => rfl
  | some t =>
    have h6 := (parse_header_eq_some_iff (pkt.take header_size)).1 ⟨t, hp⟩
    simp only [List.length_take, header_size] at h6 h
    omega

lemma parse_header_take_some (pkt : List Nat) (h : header_size ≤ pkt.length) :
    ∃ t, parse_header (pkt.take header_size) = some t := by
  refine (parse_header_eq_some_iff (pkt.take header_size)).2 ?_
  simp only [List.length_take, header_size] at h ⊢
  omega

/-! ### Index-list lemmas -/

lemma idxList_length (s k : Nat) : (idxList s k).length = k := by
  induction k generalizing s with
  | zero => rfl
  | succ k ih => simp [idxList, ih]

lemma idxList_append (a b s : Nat) :
    idxList s (a + b) = idxList s a ++ idxList (s + a) b := by
  induction a generalizing s with
  | zero => simp [idxList]
  | succ a ih =>
    have : s + (a + 1) + b = (s + 1) + (a + b) := by omega
    calc idxList s (a + 1 + b) = idxList s ((a + b) + 1) := by rw [Nat.add_right_comm]
      _ = s :: idxList (s + 1) (a + b) := rfl
      _ = s :: (idxList (s + 1) a ++ idxList (s + 1 + a) b) := by rw [ih]
      _ = idxList s (a + 1) ++ idxList (s + (a + 1)) b := by
          have harg : s + 1 + a = s + (a + 1) := by omega
          simp [idxList, harg]

lemma mem_idxList {x : Nat} (s k : Nat) : x ∈ idxList s k ↔ s ≤ x ∧ x < s + k := by
  induction k generalizing s with
  | zero => simp [idxList]
  | succ k ih =>
    simp only [idxList, List.mem_cons, ih]
    omega

lemma getD_mem_of_lt {l : List (List Nat)} {i : Nat} (h : i < l.length) :
    l.getD i [] ∈ l := by
  induction l generalizing i with
  | nil => simp at h
  | cons x xs ih =>
    cases i with
    | zero => simp [List.getD]
    | succ i =>
      simp only [List.getD_cons_succ, List.mem_cons]
      exact Or.inr (ih (by simpa using h))

/-! ### flatten-take lemmas -/

lemma take_succ_flatten (dataArr : List (List Nat)) (e : Nat) (h : e < dataArr.length) :
    (dataArr.take (e + 1)).flatten = (dataArr.take e).flatten ++ dataArr.getD e [] := by
  induction dataArr generalizing e with
  | nil => simp at h
  | cons x xs ih =>
    cases e with
    | zero => simp [List.getD]
    | succ e =>
      simp only [List.take_succ_cons, List.flatten_cons, List.getD_cons_succ]
      rw [ih e (by simpa using h), List.append_assoc]

lemma take_add_flatten (dataArr : List (List Nat)) :
    ∀ (k e : Nat), e + k ≤ dataArr.length →
    (dataArr.take (e + k)).flatten =
      (dataArr.take e).flatten ++ ((idxList e k).map (fun s => dataArr.getD s [])).flatten := by
  intro k
  induction k with
  | zero => simp [idxList]
  | succ k ih =>
    intro e h
    have he : e < dataArr.length := by omega
    have : e + (k + 1) = (e + 1) + k := by omega
    rw [this, ih (e + 1) (by omega), take_succ_flatten dataArr e he]
    simp [idxList, List.append_assoc]

/-! ### Fill-window lemmas -/

lemma fillWindowAux_general (dataArr : List (List Nat)) (w : Nat) (tc : Option TestCase)
    (base : Nat) :
    ∀ (fuel next : Nat) (skipped : Bool) (unacked : List (Nat × List Nat)),
    base + w ≤ next + fuel →
    (fillWindowAux dataArr w tc base fuel next skipped unacked).1 =
      max next (min (base + w) dataArr.length) ∧
    ∃ ext : List (Nat × List Nat),
      (fillWindowAux dataArr w tc base fuel next skipped unacked).2.2.1 = unacked ++ ext ∧
      ext.length = (fillWindowAux dataArr w tc base fuel next skipped unacked).1 - next ∧
      ∀ p ∈ ext, p.2 = create_packet p.1 0 0 (dataArr.getD p.1 []) := by
  intro fuel
  induction fuel with
  | zero =>
    intro next skipped unacked hfuel
    simp only [fillWindowAux]
    refine ⟨by omega, [], by simp, by simp, by simp⟩
  | succ fuel ih =>
    intro next skipped unacked hfuel
    by_cases hc : next < base + w ∧ next < dataArr.length
    · by_cases hskip : next = 4 ∧ tc = some TestCase.skip_seq_num ∧ skipped = false
      · have hunf : fillWindowAux dataArr w tc base (fuel + 1) next skipped unacked =
            fillWindowAux dataArr w tc base fuel (next + 1) true
              (unacked ++ [(next, create_packet next 0 0 (dataArr.getD next []))]) := by
          simp only [fillWindowAux, if_pos hc, if_pos hskip]
        rw [hunf]
        obtain ⟨h1, ext, h2, h3, h4⟩ :=
          ih (next + 1) true (unacked ++ [(next, create_packet next 0 0 (dataArr.getD next []))])
            (by omega)
        refine ⟨by rw [h1]; omega, (next, create_packet next 0 0 (dataArr.getD next [])) :: ext,
          by rw [h2]; simp, ?_, ?_⟩
        · simp only [List.length_cons, h3, h1]
          omega
        · intro p hp
          rcases List.mem_cons.1 hp with h | h
          · subst h; rfl
          · exact h4 p h
      · have hunf : fillWindowAux dataArr w tc base (fuel + 1) next skipped unacked =
            ((fillWindowAux dataArr w tc base fuel (next + 1) skipped
                (unacked ++ [(next, create_packet next 0 0 (dataArr.getD next []))])).1,
             (fillWindowAux dataArr w tc base fuel (next + 1) skipped
                (unacked ++ [(next, create_packet next 0 0 (dataArr.getD next []))])).2.1,
             (fillWindowAux dataArr w tc base fuel (next + 1) skipped
                (unacked ++ [(next, create_packet next 0 0 (dataArr.getD next []))])).2.2.1,
             create_packet next 0 0 (dataArr.getD next []) ::
               (fillWindowAux dataArr w tc base fuel (next + 1) skipped
                (unacked ++ [(next, create_packet next 0 0 (dataArr.getD next []))])).2.2.2) := by
          simp only [fillWindowAux, if_pos hc, if_neg hskip]
        rw [hunf]
        obtain ⟨h1, ext, h2, h3, h4⟩ :=
          ih (next + 1) skipped
            (unacked ++ [(next, create_packet next 0 0 (dataArr.getD next []))]) (by omega)
        refine ⟨by rw [h1]; omega, (next, create_packet next 0 0 (dataArr.getD next [])) :: ext,
          by rw [h2]; simp, ?_, ?_⟩
        · simp only [List.length_cons, h3, h1]
          omega
        · intro p hp
          rcases List.mem_cons.1 hp with h | h
          · subst h; rfl
          · exact h4 p h
    · simp only [fillWindowAux, if_neg hc]
      refine ⟨by omega, [], by simp, by simp, by simp⟩

lemma fillWindowAux_none (dataArr : List (List Nat)) (w : Nat) (base : Nat) :
    ∀ (fuel next : Nat) (unacked : List (Nat × List Nat)),
    base + w ≤ next + fuel →
    fillWindowAux dataArr w none base fuel next false unacked =
      (max next (min (base + w) dataArr.length), false,
       unacked ++ (idxList next (min (base + w) dataArr.length - next)).map
         (fun s => (s, dataPkt dataArr s)),
       (idxList next (min (base + w) dataArr.length - next)).map (dataPkt dataArr)) := by
  intro fuel
  induction fuel with
  | zero =>
    intro next unacked hfuel
    have hm : min (base + w) dataArr.length - next = 0 := by omega
    simp only [fillWindowAux, hm, idxList, List.map_nil, List.append_nil]
    refine congrArg (fun x => (x, false, unacked, ([] : List (List Nat)))) (by omega)
  | succ fuel ih =>
    intro next unacked hfuel
    by_cases hc : next < base + w ∧ next < dataArr.length
    · have hunf : fillWindowAux dataArr w none base (fuel + 1) next false unacked =
          ((fillWindowAux dataArr w none base fuel (next + 1) false
              (unacked ++ [(next, create_packet next 0 0 (dataArr.getD next []))])).1,
           (fillWindowAux dataArr w none base fuel (next + 1) false
              (unacked ++ [(next, create_packet next 0 0 (dataArr.getD next []))])).2.1,
           (fillWindowAux dataArr w none base fuel (next + 1) false
              (unacked ++ [(next, create_packet next 0 0 (dataArr.getD next []))])).2.2.1,
           create_packet next 0 0 (dataArr.getD next []) ::
             (fillWindowAux dataArr w none base fuel (next + 1) false
              (unacked ++ [(next, create_packet next 0 0 (dataArr.getD next []))])).2.2.2) := by
        simp only [fillWindowAux, if_pos hc]
        rw [if_neg (by simp)]
      rw [hunf, ih (next + 1) (unacked ++ [(next, create_packet next 0 0 (dataArr.getD next []))])
        (by omega)]
      have hm : min (base + w) dataArr.length - next =
        (min (base + w) dataArr.length - (next + 1)) + 1 := by omega
      rw [hm]
      simp only [idxList, List.map_cons]
      refine Prod.ext ?_ (Prod.ext rfl (Prod.ext ?_ ?_))
      · show max (next + 1) (min (base + w) dataArr.length) = max next (min (base + w) dataArr.length)
        omega
      · show (unacked ++ [(next, create_packet next 0 0 (dataArr.getD next []))]) ++
            (idxList (next + 1) (min (base + w) dataArr.length - (next + 1))).map
              (fun s => (s, dataPkt dataArr s)) =
          unacked ++ (next, dataPkt dataArr next) ::
            (idxList (next + 1) (min (base + w) dataArr.length - (next + 1))).map
              (fun s => (s, dataPkt dataArr s))
        simp [dataPkt]
      · show create_packet next 0 0 (dataArr.getD next []) ::
            (idxList (next + 1) (min (base + w) dataArr.length - (next + 1))).map
              (dataPkt dataArr) =
          dataPkt dataArr next ::
            (idxList (next + 1) (min (base + w) dataArr.length - (next + 1))).map
              (dataPkt dataArr)
        rfl
    · have hm : min (base + w) dataArr.length - next = 0 := by omega
      simp only [fillWindowAux, if_neg hc, hm, idxList, List.map_nil, List.append_nil]
      refine congrArg (fun x => (x, false, unacked, ([] : List (List Nat)))) (by omega)

/-! ### Server-loop lemmas -/

lemma serverRun_cons (st : ReceiverState) (pkt : List Nat) (rest : List (List Nat)) :
    serverRun st (pkt :: rest) =
      match parse_header (pkt.take header_size) with
      | none => (st, [], ServerStatus.crashed)
      | some (recv_seq, _, recv_flags) =>
        if pkt.length = header_size then
          if recv_flags &&& 2 = 2 then (st, [], ServerStatus.finished)
          else serverRun st rest
        else
          ((serverRun (gbnSwServer st recv_seq (pkt.drop header_size)).1 rest).1,
           (gbnSwServer st recv_seq (pkt.drop header_size)).2 ++
             (serverRun (gbnSwServer st recv_seq (pkt.drop header_size)).1 rest).2.1,
           (serverRun (gbnSwServer st recv_seq (pkt.drop header_size)).1 rest).2.2) := rfl

lemma gbnSwServer_recv_buffer (st : ReceiverState) (recv_seq : Nat) (data : List Nat) :
    (gbnSwServer st recv_seq data).1.recv_buffer = st.recv_buffer := by
  unfold gbnSwServer
  split
  · rfl
  · split <;> rfl

lemma serverRun_recv_buffer (pkts : List (List Nat)) :
    ∀ st : ReceiverState, (serverRun st pkts).1.recv_buffer = st.recv_buffer := by
  induction pkts with
  | nil => intro st; rfl
  | cons pkt rest ih =>
    intro st
    rw [serverRun_cons]
    cases hp : parse_header (pkt.take header_size) with
    | none => rfl
    | some t =>
      obtain ⟨recv_seq, recv_ack, recv_flags⟩ := t
      by_cases hl : pkt.length = header_size
      · simp only [hl, if_pos rfl]
        by_cases hf : recv_flags &&& 2 = 2
        · simp [hf]
        · rw [if_neg hf]; exact ih st
      · simp only [if_neg hl]
        rw [ih, gbnSwServer_recv_buffer]

lemma serverRun_no_crash (pkts : List (List Nat)) :
    ∀ st : ReceiverState, (∀ q ∈ pkts, header_size ≤ q.length) →
    (serverRun st pkts).2.2 ≠ ServerStatus.crashed := by
  induction pkts with
  | nil => intro st _; simp [serverRun]
  | cons pkt rest ih =>
    intro st hlen
    rw [serverRun_cons]
    obtain ⟨t, ht⟩ := parse_header_take_some pkt (hlen pkt (by simp))
    rw [ht]
    obtain ⟨recv_seq, recv_ack, recv_flags⟩ := t
    by_cases hl : pkt.length = header_size
    · simp only [hl, if_pos rfl]
      by_cases hf : recv_flags &&& 2 = 2
      · simp [hf]
      · rw [if_neg hf]; exact ih st (fun q hq => hlen q (by simp [hq]))
    · simp only [if_neg hl]
      exact ih _ (fun q hq => hlen q (by simp [hq]))

lemma serverRun_crash_short (st : ReceiverState) (pkt : List Nat) (rest : List (List Nat))
    (h : pkt.length < header_size) :
    (serverRun st (pkt :: rest)).1 = st ∧
    (serverRun st (pkt :: rest)).2.1 = [] ∧
    (serverRun st (pkt :: rest)).2.2 = ServerStatus.crashed := by
  rw [serverRun_cons, parse_header_take_none pkt h]
  exact ⟨rfl, rfl, rfl⟩

lemma serverRun_discard (st : ReceiverState) (pkt : List Nat) (rest : List (List Nat))
    (recv_seq recv_ack recv_flags : Nat)
    (hp : parse_header (pkt.take header_size) = some (recv_seq, recv_ack, recv_flags))
    (hl : pkt.length ≠ header_size)
    (hs : recv_seq ≠ st.expected_seq_num)
    (hskip : ¬ (st.expected_seq_num = 4 ∧ st.testCase = some TestCase.skip_ack ∧
        st.skipped_ack = false)) :
    serverRun st (pkt :: rest) = serverRun st rest := by
  have hg : gbnSwServer st recv_seq (pkt.drop header_size) = (st, []) := by
    unfold gbnSwServer
    rw [if_neg hskip, if_neg hs]
  rw [serverRun_cons, hp]
  simp only [if_neg hl, hg]
  rfl

/-- In-order delivery of k consecutive data packets with nonempty
payloads, starting at the expected sequence number, with no test case
enabled: all are accepted, all are acknowledged, the loop keeps running. -/
lemma serverRun_data (dataArr : List (List Nat)) :
    ∀ (k e : Nat) (f : List Nat) (buf : List (Nat × List Nat)),
    (∀ s ∈ idxList e k, dataArr.getD s [] ≠ []) →
    serverRun ⟨e, false, none, f, buf⟩ ((idxList e k).map (dataPkt dataArr)) =
      (⟨e + k, false, none,
          f ++ ((idxList e k).map (fun s => dataArr.getD s [])).flatten, buf⟩,
       (idxList e k).map ackPkt, ServerStatus.running) := by
  intro k
  induction k with
  | zero =>
    intro e f buf _
    simp [idxList, serverRun]
  | succ k ih =>
    intro e f buf hne
    have hmem : e ∈ idxList e (k + 1) := by
      rw [mem_idxList]; omega
    have hchunk : dataArr.getD e [] ≠ [] := hne e hmem
    simp only [idxList, List.map_cons]
    unfold serverRun
    rw [show parse_header ((dataPkt dataArr e).take header_size) = some (e, 0, 0) from
      parse_create e 0 0 (dataArr.getD e [])]
    have hlen : (dataPkt dataArr e).length ≠ header_size := by
      rw [show (dataPkt dataArr e).length = header_size + (dataArr.getD e []).length from
        create_packet_length e 0 0 (dataArr.getD e [])]
      have : (dataArr.getD e []).length ≠ 0 := by
        intro h0
        exact hchunk (List.length_eq_zero.1 h0)
      omega
    simp only [if_neg hlen]
    have hacc : gbnSwServer ⟨e, false, none, f, buf⟩ e ((dataPkt dataArr e).drop header_size) =
        (⟨e + 1, false, none, f ++ dataArr.getD e [], buf⟩, [ackPkt e]) := by
      unfold gbnSwServer
      rw [if_neg (by simp), if_pos rfl]
      rw [show (dataPkt dataArr e).drop header_size = dataArr.getD e [] from
        create_packet_drop e 0 0 (dataArr.getD e [])]
      rfl
    rw [hacc]
    rw [ih (e + 1) (f ++ dataArr.getD e []) buf
      (fun s hm => hne s (by simp [idxList, List.mem_cons, hm]))]
    refine Prod.ext ?_ (Prod.ext ?_ rfl)
    · show (⟨e + 1 + k, false, none, _, buf⟩ : ReceiverState) = ⟨e + (k + 1), false, none, _, buf⟩
      have harith : e + 1 + k = e + (k + 1) := by omega
      simp only [List.map_cons, List.flatten_cons, harith, List.append_assoc]
    · show [ackPkt e] ++ (idxList (e + 1) k).map ackPkt = ((e :: idxList (e + 1) k).map ackPkt)
      simp

/-! ### Sender-loop invariants -/

/-- The Go-Back-N window invariant plus byte-faithfulness of the stored
unacknowledged packets. -/
def senderInv (dataArr : List (List Nat)) (w : Nat) (st : SenderState) : Prop :=
  st.base ≤ st.next_seq_num ∧
  st.next_seq_num ≤ st.base + w ∧
  st.unackedPackets.length = st.next_seq_num - st.base ∧
  ∀ p ∈ st.unackedPackets, p.2 = create_packet p.1 0 0 (dataArr.getD p.1 [])

lemma senderInv_init (dataArr : List (List Nat)) (w : Nat) :
    senderInv dataArr w initSender := by
  refine ⟨Nat.le_refl 0, by simp [initSender], by simp [initSender], ?_⟩
  simp [initSender]

lemma fillWindow_spec (dataArr : List (List Nat)) (w : Nat) (tc : Option TestCase)
    (st : SenderState) :
    (fillWindow dataArr w tc st).1.base = st.base ∧
    (fillWindow dataArr w tc st).1.next_seq_num =
      max st.next_seq_num (min (st.base + w) dataArr.length) ∧
    ∃ ext : List (Nat × List Nat),
      (fillWindow dataArr w tc st).1.unackedPackets = st.unackedPackets ++ ext ∧
      ext.length = (fillWindow dataArr w tc st).1.next_seq_num - st.next_seq_num ∧
      ∀ p ∈ ext, p.2 = create_packet p.1 0 0 (dataArr.getD p.1 []) := by
  obtain ⟨h1, ext, h2, h3, h4⟩ := fillWindowAux_general dataArr w tc st.base
    (st.base + w - st.next_seq_num) st.next_seq_num st.skipped_seq_num st.unackedPackets
    (by omega)
  exact ⟨rfl, h1, ext, h2, h3, h4⟩

lemma fillWindow_inv (dataArr : List (List Nat)) (w : Nat) (tc : Option TestCase)
    (st : SenderState) (h : senderInv dataArr w st) :
    senderInv dataArr w (fillWindow dataArr w tc st).1 := by
  obtain ⟨hb, hn, hlen, hfaith⟩ := h
  obtain ⟨h1, h2, ext, h3, h4, h5⟩ := fillWindow_spec dataArr w tc st
  refine ⟨by rw [h1, h2]; omega, by rw [h1, h2]; omega, ?_, ?_⟩
  · rw [h1, h3, List.length_append, hlen, h4, h2]
    omega
  · intro p hp
    rw [h3] at hp
    rcases List.mem_append.1 hp with h | h
    · exact hfaith p h
    · exact h5 p h

lemma senderRecvPhase_recv (st : SenderState) (pkt : List Nat) :
    senderRecvPhase st (ClientEvent.recv pkt) =
      match parse_header (pkt.take header_size) with
      | none => (st, st.unackedPackets.map Prod.snd)
      | some (_, recv_ack, recv_flags) =>
        if recv_flags = ack_flag ∧ recv_ack = st.base then
          match st.unackedPackets with
          | [] => (st, [])
          | _ :: rest => ({ st with base := recv_ack + 1, unackedPackets := rest }, [])
        else (st, []) := rfl

lemma senderRecvPhase_inv (dataArr : List (List Nat)) (w : Nat)
    (st : SenderState) (ev : ClientEvent) (h : senderInv dataArr w st) :
    senderInv dataArr w (senderRecvPhase st ev).1 := by
  obtain ⟨hb, hn, hlen, hfaith⟩ := h
  cases ev with
  | timeout => exact ⟨hb, hn, hlen, hfaith⟩
  | recv pkt =>
    rw [senderRecvPhase_recv]
    cases parse_header (pkt.take header_size) with
    | none => exact ⟨hb, hn, hlen, hfaith⟩
    | some t =>
      obtain ⟨rs, ra, rf⟩ := t
      show senderInv dataArr w
        ((if rf = ack_flag ∧ ra = st.base then
            match st.unackedPackets with
            | [] => (st, [])
            | _ :: rest => ({ st with base := ra + 1, unackedPackets := rest }, [])
          else (st, ([] : List (List Nat)))).1)
      by_cases hcond : rf = ack_flag ∧ ra = st.base
      · rw [if_pos hcond]
        cases hu : st.unackedPackets with
        | nil => exact ⟨hb, hn, hlen, hfaith⟩
        | cons p rest =>
          have hlen2 : st.unackedPackets.length = rest.length + 1 := by rw [hu]; simp
          refine ⟨?_, ?_, ?_, ?_⟩ <;> simp only []
          · omega
          · omega
          · simp only [hlen2] at hlen
            omega
          · intro q hq
            exact hfaith q (by rw [hu]; exact List.mem_cons_of_mem p hq)
      · rw [if_neg hcond]
        exact ⟨hb, hn, hlen, hfaith⟩

lemma senderIter_inv (dataArr : List (List Nat)) (w : Nat) (tc : Option TestCase)
    (st : SenderState) (ev : ClientEvent) (h : senderInv dataArr w st) :
    senderInv dataArr w (senderIter dataArr w tc st ev).1 :=
  senderRecvPhase_inv dataArr w _ ev (fillWindow_inv dataArr w tc st h)

lemma senderRunFrom_inv (dataArr : List (List Nat)) (w : Nat) (tc : Option TestCase)
    (evs : List ClientEvent) :
    ∀ st : SenderState, senderInv dataArr w st →
    senderInv dataArr w (senderRunFrom dataArr w tc st evs) := by
  induction evs with
  | nil => intro st h; exact h
  | cons ev evs ih =>
    intro st h
    exact ih _ (senderIter_inv dataArr w tc st ev h)

lemma senderRun_inv (dataArr : List (List Nat)) (w : Nat) (tc : Option TestCase)
    (evs : List ClientEvent) :
    senderInv dataArr w (senderRun dataArr w tc evs) :=
  senderRunFrom_inv dataArr w tc evs initSender (senderInv_init dataArr w)

/-! ### Zero-loss trajectory -/

lemma roundStep_run (dataArr : List (List Nat)) (w : Nat)
    (sen sen2 sen3 : SenderState) (rec rec2 : ReceiverState)
    (cs sc wire acks out tl : List (List Nat)) (p : List Nat)
    (hfill : fillWindow dataArr w none sen = (sen2, wire))
    (hdrain : serverRun rec (cs ++ wire) = (rec2, acks, ServerStatus.running))
    (hacks : sc ++ acks = p :: tl)
    (hrecv : senderRecvPhase sen2 (ClientEvent.recv p) = (sen3, out)) :
    roundStep dataArr w ⟨sen, rec, cs, sc, ServerStatus.running⟩ =
      ⟨sen3, rec2, out, tl, ServerStatus.running⟩ := by
  simp only [roundStep, hfill, hdrain, hacks, hrecv]
  simp

lemma roundStep_template (dataArr : List (List Nat)) (w : Nat) (hw : 1 ≤ w)
    (hne : ∀ c ∈ dataArr, c ≠ []) (r : Nat) (hr : r < dataArr.length) :
    roundStep dataArr w (template dataArr w r) = template dataArr w (r + 1) := by
  set n := dataArr.length with hn
  have he0 : tIdx w n r ≤ min (r + w) n := by
    unfold tIdx; split <;> omega
  have her : r ≤ tIdx w n r := by
    unfold tIdx; split <;> omega
  have he1 : tIdx w n (r + 1) = min (r + w) n := by
    unfold tIdx
    rw [if_neg (by omega)]
    omega
  set e := tIdx w n r with hedef
  set m := min (r + w) n with hmdef
  have hm1 : r + 1 ≤ m := by omega
  have hidx : idxList r (m - r) = idxList r (e - r) ++ idxList e (m - e) := by
    have h1 : m - r = (e - r) + (m - e) := by omega
    have h2 : r + (e - r) = e := by omega
    rw [h1, idxList_append, h2]
  have hcons : idxList r (m - r) = r :: idxList (r + 1) (m - (r + 1)) := by
    have h1 : m - r = (m - (r + 1)) + 1 := by omega
    rw [h1]; rfl
  have htemp : template dataArr w r =
      ⟨⟨r, e, false, (idxList r (e - r)).map (fun s => (s, dataPkt dataArr s))⟩,
       ⟨e, false, none, (dataArr.take e).flatten, []⟩,
       [], (idxList r (e - r)).map ackPkt, ServerStatus.running⟩ := rfl
  have htemp2 : template dataArr w (r + 1) =
      ⟨⟨r + 1, m, false, (idxList (r + 1) (m - (r + 1))).map (fun s => (s, dataPkt dataArr s))⟩,
       ⟨m, false, none, (dataArr.take m).flatten, []⟩,
       [], (idxList (r + 1) (m - (r + 1))).map ackPkt, ServerStatus.running⟩ := by
    unfold template
    rw [← hn, he1]
  have hfill : fillWindow dataArr w none
      ⟨r, e, false, (idxList r (e - r)).map (fun s => (s, dataPkt dataArr s))⟩ =
      (⟨r, m, false, (idxList r (m - r)).map (fun s => (s, dataPkt dataArr s))⟩,
       (idxList e (m - e)).map (dataPkt dataArr)) := by
    unfold fillWindow
    rw [fillWindowAux_none dataArr w r (r + w - e) e
      ((idxList r (e - r)).map (fun s => (s, dataPkt dataArr s))) (by omega)]
    rw [← hn, ← hmdef]
    refine Prod.ext ?_ rfl
    show (⟨r, max e m, false, _⟩ : SenderState) = ⟨r, m, false, _⟩
    rw [hidx, List.map_append]
    refine congrArg (fun x => (⟨r, x, false, _⟩ : SenderState)) (by omega)
  have hchunks : ∀ s ∈ idxList e (m - e), dataArr.getD s [] ≠ [] := by
    intro s hs
    rw [mem_idxList] at hs
    have hsn : s < n := by omega
    exact hne _ (getD_mem_of_lt hsn)
  have hdrain : serverRun ⟨e, false, none, (dataArr.take e).flatten, []⟩
      ([] ++ (idxList e (m - e)).map (dataPkt dataArr)) =
      (⟨m, false, none, (dataArr.take m).flatten, []⟩,
       (idxList e (m - e)).map ackPkt, ServerStatus.running) := by
    rw [List.nil_append, serverRun_data dataArr (m - e) e (dataArr.take e).flatten [] hchunks]
    have hem : e + (m - e) = m := by omega
    rw [show (dataArr.take e).flatten ++
        ((idxList e (m - e)).map (fun s => dataArr.getD s [])).flatten =
        (dataArr.take m).flatten from by
      rw [← take_add_flatten dataArr (m - e) e (by omega), hem]]
    rw [hem]
  have hacks : (idxList r (e - r)).map ackPkt ++ (idxList e (m - e)).map ackPkt =
      ackPkt r :: (idxList (r + 1) (m - (r + 1))).map ackPkt := by
    rw [← List.map_append, ← hidx, hcons, List.map_cons]
  have hrecv : senderRecvPhase
      ⟨r, m, false, (idxList r (m - r)).map (fun s => (s, dataPkt dataArr s))⟩
      (ClientEvent.recv (ackPkt r)) =
      (⟨r + 1, m, false, (idxList (r + 1) (m - (r + 1))).map (fun s => (s, dataPkt dataArr s))⟩,
       []) := by
    rw [senderRecvPhase_recv]
    rw [show parse_header ((ackPkt r).take header_size) = some (0, r, ack_flag) from
      parse_create 0 r ack_flag []]
    show (if ack_flag = ack_flag ∧ r =
          (⟨r, m, false, (idxList r (m - r)).map (fun s => (s, dataPkt dataArr s))⟩ :
            SenderState).base then _ else _) = _
    rw [if_pos ⟨rfl, rfl⟩, hcons, List.map_cons]
  rw [htemp, htemp2]
  exact roundStep_run dataArr w _ _ _ _ _ _ _ _ _ _ _ _ hfill hdrain hacks hrecv

lemma trajectory (dataArr : List (List Nat)) (w : Nat) (hw : 1 ≤ w)
    (hne : ∀ c ∈ dataArr, c ≠ []) :
    ∀ r, r ≤ dataArr.length →
    (roundStep dataArr w)^[r] initSys = template dataArr w r := by
  intro r
  induction r with
  | zero =>
    intro _
    show initSys = template dataArr w 0
    unfold initSys template tIdx initSender initReceiver
    simp [idxList]
  | succ r ih =>
    intro hr
    rw [Function.iterate_succ_apply', ih (by omega),
      roundStep_template dataArr w hw hne r (by omega)]

lemma serverRun_fin (st : ReceiverState) :
    serverRun st [create_packet 0 0 fin_flag []] = (st, [], ServerStatus.finished) := by
  rw [serverRun_cons, parse_create 0 0 fin_flag []]
  show (if (create_packet 0 0 fin_flag []).length = header_size then
          if fin_flag &&& 2 = 2 then (st, [], ServerStatus.finished) else serverRun st []
        else _) = _
  rw [if_pos (by decide), if_pos (by decide)]

lemma senderRecvPhase_recv_eq (st : SenderState) (pkt : List Nat) (rs ra rf : Nat)
    (hp : parse_header (pkt.take header_size) = some (rs, ra, rf)) :
    senderRecvPhase st (ClientEvent.recv pkt) =
      if rf = ack_flag ∧ ra = st.base then
        match st.unackedPackets with
        | [] => (st, [])
        | _ :: rest => ({ st with base := ra + 1, unackedPackets := rest }, [])
      else (st, []) := by
  rw [senderRecvPhase_recv, hp]

lemma clientHandshake_some (r : List Nat) :
    clientHandshake (some r) =
      match parse_header (r.take header_size) with
      | none => ([create_packet 0 0 syn_flag []], false)
      | some (recv_seq, _, recv_flags) =>
        if recv_flags &&& 12 = 12 then
          ([create_packet 0 0 syn_flag [], create_packet 0 recv_seq ack_flag []], true)
        else ([create_packet 0 0 syn_flag []], false) := rfl

lemma clientHandshake_some_eq (r : List Nat) (rs ra rf : Nat)
    (hp : parse_header (r.take header_size) = some (rs, ra, rf)) :
    clientHandshake (some r) =
      if rf &&& 12 = 12 then
        ([create_packet 0 0 syn_flag [], create_packet 0 rs ack_flag []], true)
      else ([create_packet 0 0 syn_flag []], false) := by
  rw [clientHandshake_some, hp]

lemma clientHandshake_some_none (r : List Nat)
    (hp : parse_header (r.take header_size) = none) :
    clientHandshake (some r) = ([create_packet 0 0 syn_flag []], false) := by
  rw [clientHandshake_some, hp]

lemma clientHandshake_failure (reply : Option (List Nat))
    (h : (clientHandshake reply).2 = false) :
    (clientHandshake reply).1 = [create_packet 0 0 syn_flag []] := by
  cases reply with
  | none => rfl
  | some r =>
    cases hp : parse_header (r.take header_size) with
    | none => rw [clientHandshake_some_none r hp]
    | some t =>
      obtain ⟨rs, ra, rf⟩ := t
      by_cases hf : rf &&& 12 = 12
      · rw [clientHandshake_some_eq r rs ra rf hp, if_pos hf] at h
        exact absurd h (by simp)
      · rw [clientHandshake_some_eq r rs ra rf hp, if_neg hf]

/-! ### Claim theorems -/

/-- Claim C1: for every input byte sequence chunked into blocks of at most
994 bytes (nonempty, as the file reader produces them, and fewer than 2^16
chunks so that the 16-bit header fields are faithful), a zero-loss run of
goBackNClient against the gbnSwServer loop with no test case enabled
delivers, at the receiver's output file, exactly the concatenation of the
input chunks. -/
theorem claim1_round_trip (dataArr : List (List Nat)) (w : Nat)
    (hw : 1 ≤ w) (hcount : dataArr.length < 65536)
    (hchunks : ∀ c ∈ dataArr, c ≠ [] ∧ c.length ≤ data_size) :
    simulate dataArr w = dataArr.flatten := by
  have hne : ∀ c ∈ dataArr, c ≠ [] := fun c hc => (hchunks c hc).1
  have htr := trajectory dataArr w hw hne dataArr.length (Nat.le_refl _)
  have hen : tIdx w dataArr.length dataArr.length = dataArr.length := by
    unfold tIdx; split <;> omega
  have htempn : template dataArr w dataArr.length =
      ⟨⟨dataArr.length, dataArr.length, false, []⟩,
       ⟨dataArr.length, false, none, dataArr.flatten, []⟩,
       [], [], ServerStatus.running⟩ := by
    unfold template
    rw [hen]
    simp [idxList, List.take_length]
  unfold simulate
  rw [htr, htempn]
  show restructFile (serverRun ⟨dataArr.length, false, none, dataArr.flatten, []⟩
      ([] ++ [create_packet 0 0 fin_flag []])).1.fileOut _ = _
  rw [List.nil_append, serverRun_fin]
  unfold restructFile
  simp [sortByKey]

/-- Witness for C1 at a concrete three-chunk input. -/
theorem claim1_round_trip_witness : simulate [[10], [20], [30]] 3 = [10, 20, 30] :=
  claim1_round_trip [[10], [20], [30]] 3 (by decide) (by decide) (by decide)

/-- Counterexample to claim C2: at the initial receiver state, the data
packet with sequence number 0 and payload [42] is accepted (expected
advances, the payload is written, an ACK is sent), yet the accepted
(seqNum, payload) pair is not recorded in recv_buffer, which stays
empty. -/
theorem claim2_counterexample :
    (gbnSwServer initReceiver 0 [42]).1.expected_seq_num = 1 ∧
    (gbnSwServer initReceiver 0 [42]).1.fileOut = [42] ∧
    (gbnSwServer initReceiver 0 [42]).2 = [ackPkt 0] ∧
    ¬ ((0, [42]) ∈ (gbnSwServer initReceiver 0 [42]).1.recv_buffer) := by decide

/-- Claim C2 as amended: accepted payloads are appended directly to the
output file at acceptance time; the receive loop never appends to
recv_buffer, so the final restructFile pass sorts an empty buffer and
appends nothing to the file. -/
theorem claim2_amended_sort (st : ReceiverState) (pkts : List (List Nat))
    (recv_seq : Nat) (data : List Nat) :
    (serverRun st pkts).1.recv_buffer = st.recv_buffer ∧
    (recv_seq = st.expected_seq_num →
      ¬ (st.expected_seq_num = 4 ∧ st.testCase = some TestCase.skip_ack ∧
          st.skipped_ack = false) →
      (gbnSwServer st recv_seq data).1.fileOut = st.fileOut ++ data) ∧
    restructFile (serverRun st pkts).1.fileOut [] = (serverRun st pkts).1.fileOut := by
  refine ⟨serverRun_recv_buffer pkts st, ?_, ?_⟩
  · intro hs hskip
    unfold gbnSwServer
    rw [if_neg hskip, if_pos hs]
  · unfold restructFile
    simp [sortByKey]

/-- Witness for the amended C2 at the initial receiver state. -/
theorem claim2_amended_sort_witness :
    (gbnSwServer initReceiver 0 [42]).1.fileOut = initReceiver.fileOut ++ [42] :=
  (claim2_amended_sort initReceiver [] 0 [42]).2.1 (by decide) (by decide)

/-- Counterexample to claim C3: a malformed 3-byte datagram does escalate
to a fatal error — the receive loop terminates with an uncaught
struct.error from parse_header. -/
theorem claim3_counterexample :
    ([0, 0, 0] : List Nat).length < header_size ∧
    (serverRun initReceiver [[0, 0, 0]]).2.2 = ServerStatus.crashed := by decide

/-- Claim C3 as amended: packets carrying at least a full 6-byte header
never crash the receive loop, and an out-of-order data packet is discarded
silently with the loop continuing unchanged; but a packet shorter than 6
bytes makes parse_header raise an uncaught error that terminates the
receiver. -/
theorem claim3_amended_short_header (st : ReceiverState) (pkts : List (List Nat))
    (pkt : List Nat) (rest : List (List Nat)) (rs ra rf : Nat) :
    ((∀ q ∈ pkts, header_size ≤ q.length) →
      (serverRun st pkts).2.2 ≠ ServerStatus.crashed) ∧
    (pkt.length < header_size →
      (serverRun st (pkt :: rest)).2.2 = ServerStatus.crashed) ∧
    (parse_header (pkt.take header_size) = some (rs, ra, rf) →
      pkt.length ≠ header_size →
      rs ≠ st.expected_seq_num →
      ¬ (st.expected_seq_num = 4 ∧ st.testCase = some TestCase.skip_ack ∧
          st.skipped_ack = false) →
      serverRun st (pkt :: rest) = serverRun st rest) := by
  refine ⟨serverRun_no_crash pkts st, ?_, ?_⟩
  · intro h
    exact (serverRun_crash_short st pkt rest h).2.2
  · intro hp hl hs hskip
    exact serverRun_discard st pkt rest rs ra rf hp hl hs hskip

/-- Witness for the amended C3: a 1-byte datagram crashes the loop. -/
theorem claim3_amended_short_header_witness :
    (serverRun initReceiver [[9]]).2.2 = ServerStatus.crashed :=
  (claim3_amended_short_header initReceiver [] [9] [] 0 0 0).2.1 (by decide)

/-- Claim C4: after any sequence of receive events, the sender state of
goBackNClient satisfies base ≤ next_seq_num ≤ base + windowSize with
unackedPackets.length = next_seq_num − base, so the number of outstanding
unacknowledged packets never exceeds the window size — also directly after
the fill-window phase. -/
theorem claim4_window_invariant (dataArr : List (List Nat)) (w : Nat)
    (tc : Option TestCase) (evs : List ClientEvent) :
    (senderRun dataArr w tc evs).base ≤ (senderRun dataArr w tc evs).next_seq_num ∧
    (senderRun dataArr w tc evs).next_seq_num ≤ (senderRun dataArr w tc evs).base + w ∧
    (senderRun dataArr w tc evs).unackedPackets.length =
      (senderRun dataArr w tc evs).next_seq_num - (senderRun dataArr w tc evs).base ∧
    (senderRun dataArr w tc evs).unackedPackets.length ≤ w ∧
    (fillWindow dataArr w tc (senderRun dataArr w tc evs)).1.unackedPackets.length ≤ w := by
  obtain ⟨h1, h2, h3, h4⟩ := senderRun_inv dataArr w tc evs
  obtain ⟨g1, g2, g3, g4⟩ :=
    fillWindow_inv dataArr w tc (senderRun dataArr w tc evs)
      (senderRun_inv dataArr w tc evs)
  exact ⟨h1, h2, h3, by omega, by omega⟩

/-- Claim C5: a received packet whose flags equal exactly ACK and whose
acknowledgment number equals the current base pops the oldest unacked
entry and increments base by exactly one (next_seq_num untouched, nothing
sent); a packet with any other flags value or acknowledgment number leaves
the whole sender state unchanged — no cumulative-ACK jump. -/
theorem claim5_ack_step (st : SenderState) (pkt : List Nat) (rs ra rf : Nat)
    (hp : parse_header (pkt.take header_size) = some (rs, ra, rf)) :
    ((rf = ack_flag ∧ ra = st.base ∧ st.unackedPackets ≠ []) →
      (senderRecvPhase st (ClientEvent.recv pkt)).1.base = st.base + 1 ∧
      (senderRecvPhase st (ClientEvent.recv pkt)).1.unackedPackets =
        st.unackedPackets.tail ∧
      (senderRecvPhase st (ClientEvent.recv pkt)).1.next_seq_num = st.next_seq_num ∧
      (senderRecvPhase st (ClientEvent.recv pkt)).2 = []) ∧
    (¬ (rf = ack_flag ∧ ra = st.base) →
      (senderRecvPhase st (ClientEvent.recv pkt)).1 = st ∧
      (senderRecvPhase st (ClientEvent.recv pkt)).2 = []) := by
  rw [senderRecvPhase_recv_eq st pkt rs ra rf hp]
  constructor
  · rintro ⟨hf, hb, hu⟩
    rw [if_pos ⟨hf, hb⟩]
    cases hu2 : st.unackedPackets with
    | nil => exact absurd hu2 hu
    | cons p rest =>
      refine ⟨?_, rfl, rfl, rfl⟩
      show ra + 1 = st.base + 1
      rw [hb]
  · intro hc
    rw [if_neg hc]
    exact ⟨rfl, rfl⟩

/-- Witness for C5: an exact ACK for base 0 advances base to 1. -/
theorem claim5_ack_step_witness :
    (senderRecvPhase ⟨0, 1, false, [(0, [9])]⟩ (ClientEvent.recv (ackPkt 0))).1.base = 0 + 1 :=
  ((claim5_ack_step ⟨0, 1, false, [(0, [9])]⟩ (ackPkt 0) 0 0 ack_flag (by decide)).1
    (by decide)).1

/-- Claim C6: on a timeout (or any other receive failure) the sender
retransmits every packet currently in unackedPackets, oldest first, with
the stored bytes — which are exactly the create_packet encoding of each
entry's sequence number and chunk, hence byte-identical to the original
transmission — and leaves base and next_seq_num (the whole state)
unchanged. -/
theorem claim6_timeout_retransmit (dataArr : List (List Nat)) (w : Nat)
    (tc : Option TestCase) (evs : List ClientEvent) :
    senderRecvPhase (senderRun dataArr w tc evs) ClientEvent.timeout =
      (senderRun dataArr w tc evs,
       (senderRun dataArr w tc evs).unackedPackets.map Prod.snd) ∧
    ∀ p ∈ (senderRun dataArr w tc evs).unackedPackets,
      p.2 = create_packet p.1 0 0 (dataArr.getD p.1 []) :=
  ⟨rfl, (senderRun_inv dataArr w tc evs).2.2.2⟩

/-- Witness for C6 after one timeout on a one-chunk transfer. -/
theorem claim6_timeout_retransmit_witness :
    senderRecvPhase (senderRun [[5]] 3 none [ClientEvent.timeout]) ClientEvent.timeout =
      (senderRun [[5]] 3 none [ClientEvent.timeout],
       (senderRun [[5]] 3 none [ClientEvent.timeout]).unackedPackets.map Prod.snd) ∧
    (0, create_packet 0 0 0 [5]).2 = create_packet 0 0 0 ([[5]].getD 0 []) :=
  ⟨(claim6_timeout_retransmit [[5]] 3 none [ClientEvent.timeout]).1,
   (claim6_timeout_retransmit [[5]] 3 none [ClientEvent.timeout]).2
     (0, create_packet 0 0 0 [5]) (by decide)⟩

/-- Claim C7: the client handshake sends exactly one SYN packet
(seq 0, ack 0, flags SYN); a reply whose flags contain both SYN and ACK
makes it send one ACK packet whose acknowledgment number is the received
sequence number and succeed; a timeout, an unparseable reply, or a reply
lacking SYN+ACK makes it fail immediately with no retry, and after a
failed handshake the client transmits nothing beyond that one SYN — in
particular no data packets. -/
theorem claim7_handshake (reply : Option (List Nat)) (dataArr : List (List Nat))
    (w : Nat) (tc : Option TestCase) (evs : List ClientEvent) :
    clientHandshake none = ([create_packet 0 0 syn_flag []], false) ∧
    (∀ r rs ra rf, reply = some r →
      parse_header (r.take header_size) = some (rs, ra, rf) →
      (rf &&& 12 = 12 →
        clientHandshake reply =
          ([create_packet 0 0 syn_flag [], create_packet 0 rs ack_flag []], true)) ∧
      (rf &&& 12 ≠ 12 →
        clientHandshake reply = ([create_packet 0 0 syn_flag []], false))) ∧
    (∀ r, reply = some r → parse_header (r.take header_size) = none →
      clientHandshake reply = ([create_packet 0 0 syn_flag []], false)) ∧
    ((clientHandshake reply).2 = false →
      clientWire dataArr w tc reply evs = [create_packet 0 0 syn_flag []]) := by
  refine ⟨rfl, ?_, ?_, ?_⟩
  · rintro r rs ra rf rfl hp
    constructor
    · intro hf
      rw [clientHandshake_some_eq r rs ra rf hp, if_pos hf]
    · intro hf
      rw [clientHandshake_some_eq r rs ra rf hp, if_neg hf]
  · rintro r rfl hp
    exact clientHandshake_some_none r hp
  · intro h
    have h1 := clientHandshake_failure reply h
    simp only [clientWire, h, Bool.false_eq_true, if_false]
    exact h1

/-- Witness for C7: on a timeout the client sends only the SYN. -/
theorem claim7_handshake_witness :
    clientWire [[1]] 3 none none [] = [create_packet 0 0 syn_flag []] :=
  (claim7_handshake none [[1]] 3 none []).2.2.2 rfl

/-- Claim C8: for 16-bit header fields and a payload of at most 994 bytes,
parse_header inverts create_packet on the 6-byte big-endian header, and
the bytes after the header are the payload unchanged. -/
theorem claim8_codec (seq ack flags : Nat) (data : List Nat)
    (h1 : seq < 65536) (h2 : ack < 65536) (h3 : flags < 65536)
    (h4 : data.length ≤ data_size) :
    parse_header ((create_packet seq ack flags data).take header_size) =
      some (seq, ack, flags) ∧
    (create_packet seq ack flags data).drop header_size = data :=
  ⟨parse_create seq ack flags data, create_packet_drop seq ack flags data⟩

/-- Witness for C8 at seq 513, ack 7, flags 4, payload [1,2,3]. -/
theorem claim8_codec_witness :
    parse_header ((create_packet 513 7 4 [1, 2, 3]).take header_size) =
      some (513, 7, 4) ∧
    (create_packet 513 7 4 [1, 2, 3]).drop header_size = [1, 2, 3] :=
  claim8_codec 513 7 4 [1, 2, 3] (by decide) (by decide) (by decide) (by decide)

/-- Claim C9: a data packet whose sequence number differs from
expected_seq_num makes gbnSwServer write nothing to the file, send no
packet at all, and leave expected_seq_num unchanged. -/
theorem claim9_discard (st : ReceiverState) (recv_seq : Nat) (data : List Nat)
    (h : recv_seq ≠ st.expected_seq_num) :
    (gbnSwServer st recv_seq data).1.fileOut = st.fileOut ∧
    (gbnSwServer st recv_seq data).2 = [] ∧
    (gbnSwServer st recv_seq data).1.expected_seq_num = st.expected_seq_num := by
  unfold gbnSwServer
  by_cases hskip : st.expected_seq_num = 4 ∧ st.testCase = some TestCase.skip_ack ∧
      st.skipped_ack = false
  · rw [if_pos hskip]
    exact ⟨rfl, rfl, rfl⟩
  · rw [if_neg hskip, if_neg h]
    exact ⟨rfl, rfl, rfl⟩

/-- Witness for C9: sequence number 5 at a fresh receiver is discarded. -/
theorem claim9_discard_witness :
    (gbnSwServer initReceiver 5 [1]).1.fileOut = initReceiver.fileOut ∧
    (gbnSwServer initReceiver 5 [1]).2 = [] ∧
    (gbnSwServer initReceiver 5 [1]).1.expected_seq_num =
      initReceiver.expected_seq_num :=
  claim9_discard initReceiver 5 [1] (by decide)

/-- Claim C10: in any reachable sender state in which the outer loop
condition holds (chunks remain below base, or packets are outstanding),
the fill-window phase leaves unackedPackets non-empty, so the pop of the
oldest entry in the ACK branch never works on an empty list. -/
theorem claim10_pop_safe (dataArr : List (List Nat)) (w : Nat) (tc : Option TestCase)
    (evs : List ClientEvent) (hw : 1 ≤ w)
    (hloop : (senderRun dataArr w tc evs).base < dataArr.length ∨
      (senderRun dataArr w tc evs).unackedPackets ≠ []) :
    (fillWindow dataArr w tc (senderRun dataArr w tc evs)).1.unackedPackets ≠ [] := by
  obtain ⟨hb, hn2, hlen, _⟩ := senderRun_inv dataArr w tc evs
  obtain ⟨f1, f2, ext, f3, f4, _⟩ :=
    fillWindow_spec dataArr w tc (senderRun dataArr w tc evs)
  intro hnil
  rw [f3] at hnil
  obtain ⟨hu0, hext0⟩ := List.append_eq_nil.1 hnil
  rcases hloop with hbase | hune
  · have hnext : (senderRun dataArr w tc evs).next_seq_num =
        (senderRun dataArr w tc evs).base := by
      rw [hu0] at hlen
      simp only [List.length_nil] at hlen
      omega
    have h0 : (fillWindow dataArr w tc (senderRun dataArr w tc evs)).1.next_seq_num -
        (senderRun dataArr w tc evs).next_seq_num = 0 := by
      rw [← f4, hext0]
      rfl
    rw [f2] at h0
    omega
  · exact hune hu0

/-- Witness for C10 at a fresh one-chunk sender. -/
theorem claim10_pop_safe_witness :
    (fillWindow [[7]] 3 none (senderRun [[7]] 3 none [])).1.unackedPackets ≠ [] :=
  claim10_pop_safe [[7]] 3 none [] (by decide) (by decide)

end App
